import Mathlib

/-!
# Verification of the `awaur` paginated-stream engine

A shallow embedding of `src/paginator.rs`: the `PaginationDelegate` trait
becomes a record of pure operations over an opaque delegate state type `σ`,
`PaginatedStream` becomes a five-state sum type, and `Stream::poll_next`
becomes a pure step function.  The asynchronous `next_page` future is
modelled by having the `Pending` state hold the delegate that was moved
into the async block; a scheduler input (`resolve : Bool`) says whether the
in-flight future resolves at a given poll, and on resolution the result is
`next_page` applied to that captured delegate.  Rust panics
(`unwrap` on an empty page, `unreachable!()` in the `Indeterminate` arm)
are modelled by the step function returning `none`.

`usize` is modelled as `Nat`; the single place where the machine width
matters is `delegate.total_items().unwrap_or(usize::MAX)`, so `usize::MAX`
is kept as the explicit constant `USIZE_MAX` (64-bit target).
-/

deriving instance DecidableEq for Except

namespace Awaur

/-- `usize::MAX` on a 64-bit target. -/
def USIZE_MAX : Nat := 2 ^ 64 - 1

/-- The `PaginationDelegate` trait from `src/paginator.rs`, as a record of
pure operations over a delegate state type `σ`.  `next_page` is the
resolved value of the async call together with the mutated delegate
(`async fn next_page(&mut self) -> Result<Vec<Item>, Error>`). -/
structure PaginationDelegate (σ Item Err : Type) where
  next_page : σ → Except Err (List Item) × σ
  offset : σ → Nat
  set_offset : σ → Nat → σ
  total_items : σ → Option Nat

/-- `ReadyStateValue<D>` from `src/paginator.rs`: the delegate together
with the `VecDeque` of fetched, not-yet-yielded items (modelled as a
front-poppable `List`). -/
structure ReadyStateValue (σ Item : Type) where
  delegate : σ
  items : List Item
deriving DecidableEq

/-- The `PaginatedStream` state enum from `src/paginator.rs`.  `Pending`
holds the delegate captured by the in-flight `next_page` future. -/
inductive PaginatedStream (σ Item : Type) where
  | Request : σ → PaginatedStream σ Item
  | Pending : σ → PaginatedStream σ Item
  | Ready : ReadyStateValue σ Item → PaginatedStream σ Item
  | Closed : PaginatedStream σ Item
  | Indeterminate : PaginatedStream σ Item
deriving DecidableEq

/-- `std::task::Poll`. -/
inductive Poll (α : Type) where
  | Ready : α → Poll α
  | Pending : Poll α
deriving DecidableEq

/-- `<PaginatedStream as Stream>::poll_next`, one call.  The `resolve`
argument is the scheduler's choice of whether the in-flight future (if
any) resolves during this poll.  The result is `none` when the Rust code
panics, otherwise the returned `Poll<Option<Result<Item, Error>>>`
together with the state installed before returning. -/
def poll_next (ops : PaginationDelegate σ Item Err) :
    PaginatedStream σ Item → Bool →
    Option (Poll (Option (Except Err Item)) × PaginatedStream σ Item)
  | .Request delegate, _ =>
      -- `self.set(Pending(Box::pin(async { ... })))`: the async block
      -- captures the delegate; `poll_next` returns `Poll::Pending`.
      some (.Pending, .Pending delegate)
  | .Pending delegate, resolve =>
      if resolve then
        match ops.next_page delegate with
        | (.ok items, delegate) =>
          -- `delegate.set_offset(delegate.offset() + items.len());`
          let delegate := ops.set_offset delegate (ops.offset delegate + items.length)
          match items with
          -- `items.pop_front().unwrap()` panics on an empty page.
          | [] => none
          | popped :: items =>
            some (.Ready (some (.ok popped)), .Ready ⟨delegate, items⟩)
        | (.error error, _) => some (.Ready (some (.error error)), .Closed)
      else
        some (.Pending, .Pending delegate)
  | .Ready v, _ =>
      match v.items with
      | popped :: items =>
        some (.Ready (some (.ok popped)), .Ready ⟨v.delegate, items⟩)
      | [] =>
        -- `delegate.offset() >= delegate.total_items().unwrap_or(usize::MAX)`
        if (ops.total_items v.delegate).getD USIZE_MAX ≤ ops.offset v.delegate then
          some (.Ready none, .Closed)
        else
          -- `self.set(Request(delegate)); self.poll_next(ctx)`: the inner
          -- call hits the `Request` arm, installs `Pending` and returns
          -- `Poll::Pending` within the same call.
          some (.Pending, .Pending v.delegate)
  | .Closed, _ =>
      -- `Closed => Poll::Ready(None)`: unlike every other arm, this one
      -- performs no `self.set(...)`, so the `Indeterminate` placeholder
      -- installed by the `mem::replace` at the top of `poll_next` stays
      -- installed when the call returns.
      some (.Ready none, .Indeterminate)
  | .Indeterminate, _ => none  -- `unreachable!()`

/-- `<PaginatedStream as Stream>::size_hint`. -/
def size_hint (ops : PaginationDelegate σ Item Err) :
    PaginatedStream σ Item → Nat × Option Nat
  | .Request delegate => (0, ops.total_items delegate)
  | .Ready v => (0, ops.total_items v.delegate)
  | _ => (0, none)

/-- The fetch, if any, that resolves during one poll: the offset the
source currently reports together with the result of `next_page`.  A fetch
resolves exactly when the state is `Pending` and the scheduler resolves
the future. -/
def fetchOf (ops : PaginationDelegate σ Item Err) :
    PaginatedStream σ Item → Bool → List (Nat × Except Err (List Item))
  | .Pending delegate, true => [(ops.offset delegate, (ops.next_page delegate).1)]
  | _, _ => []

/-- Drive the engine through one poll per schedule entry, collecting the
poll results and the resolved fetches.  The final component is the state
after the run, or `none` if some poll panicked (the run stops there). -/
def run (ops : PaginationDelegate σ Item Err) :
    PaginatedStream σ Item → List Bool →
    List (Poll (Option (Except Err Item))) ×
      List (Nat × Except Err (List Item)) × Option (PaginatedStream σ Item)
  | s, [] => ([], [], some s)
  | s, r :: rs =>
    match poll_next ops s r with
    | none => ([], fetchOf ops s r, none)
    | some (out, s') =>
      match run ops s' rs with
      | (outs, fs, fin) => (out :: outs, fetchOf ops s r ++ fs, fin)

/-- The item yielded by one poll result, if any. -/
def itemOf : Poll (Option (Except Err Item)) → Option Item
  | .Ready (some (.ok x)) => some x
  | _ => none

/-- The error yielded by one poll result, if any. -/
def errOf : Poll (Option (Except Err Item)) → Option Err
  | .Ready (some (.error e)) => some e
  | _ => none

/-- Whether a poll result is the end-of-sequence signal `Poll::Ready(None)`. -/
def isDone : Poll (Option (Except Err Item)) → Bool
  | .Ready none => true
  | _ => false

/-- The items yielded by a list of poll results, in order. -/
def yielded (outs : List (Poll (Option (Except Err Item)))) : List Item :=
  outs.filterMap itemOf

/-- The errors yielded by a list of poll results, in order. -/
def yieldedErrors (outs : List (Poll (Option (Except Err Item)))) : List Err :=
  outs.filterMap errOf

/-- The items buffered inside a state (the `Ready` buffer). -/
def buffered : PaginatedStream σ Item → List Item
  | .Ready v => v.items
  | _ => []

/-- The items delivered by the successful fetches in a fetch trace, in
order (error fetches deliver nothing). -/
def okItems (fs : List (Nat × Except Err (List Item))) : List Item :=
  (fs.map fun f => match f.2 with | .ok p => p | .error _ => []).flatten

/-- The errors delivered by the failed fetches in a fetch trace, in order. -/
def errItems (fs : List (Nat × Except Err (List Item))) : List Err :=
  fs.filterMap fun f => match f.2 with | .ok _ => none | .error e => some e

/-! ## Concrete delegates

Instantiations of the `PaginationDelegate` interface used to run the
engine on concrete inputs: a scripted in-memory source, two degenerate
sources, and the GitHub issue-search delegate from
`examples/pagination_example/src/github.rs`. -/

/-- State of a scripted in-memory source: it serves `pending_pages` in
order, stores whatever offset the engine sets, and reports a fixed
advisory total. -/
structure PagesDelegate where
  off : Nat
  total : Option Nat
  pending_pages : List (List Nat)
deriving DecidableEq

/-- The scripted pagination source over `PagesDelegate` (a source that
runs out of pages reports an error). -/
def pagesOps : PaginationDelegate PagesDelegate Nat Unit where
  next_page d :=
    match d.pending_pages with
    | [] => (.error (), d)
    | p :: ps => (.ok p, { d with pending_pages := ps })
  offset d := d.off
  set_offset d value := { d with off := value }
  total_items d := d.total

/-- The delegate of the spec's concrete scenario: page size 10, advisory
total 25, pages of sizes `[10, 10, 5]` holding the items `0,…,24`. -/
def scenarioDelegate : PagesDelegate :=
  ⟨0, some 25, [List.range' 0 10, List.range' 10 10, List.range' 20 5]⟩

/-- A trivial delegate that always serves the one-item page `[7]`. -/
def constOps : PaginationDelegate Unit Nat Unit where
  next_page d := (.ok [7], d)
  offset _ := 0
  set_offset d _ := d
  total_items _ := some 1

/-- A delegate whose fetches succeed with an empty page. -/
def emptyPageOps : PaginationDelegate Unit Nat Unit where
  next_page d := (.ok [], d)
  offset _ := 0
  set_offset d _ := d
  total_items _ := none

/-- A delegate that reports offset `usize::MAX` and no advisory total;
legal under the trait. -/
def maxOffsetOps : PaginationDelegate Unit Nat Unit where
  next_page d := (.ok [0], d)
  offset _ := USIZE_MAX
  set_offset d _ := d
  total_items _ := none

/-- A delegate whose fetch fails. -/
def failOps : PaginationDelegate Unit Nat Nat where
  next_page d := (.error 42, d)
  offset _ := 0
  set_offset d _ := d
  total_items _ := none

/-- `IssueSearchParams` from `examples/pagination_example/src/github.rs`
(the query string is opaque to pagination and omitted). -/
structure IssueSearchParams where
  per_page : Nat
  page : Nat
deriving DecidableEq

/-- `IssueSearchResponse` from the pagination example. -/
structure IssueSearchResponse (Item : Type) where
  total_count : Nat
  items : List Item

/-- `IssueSearchDelegate` from the pagination example; the borrowed HTTP
client is factored out as the oracle passed to `issueSearchOps`. -/
structure IssueSearchDelegate (Item : Type) where
  params : IssueSearchParams
  total_count : Option Nat

/-- The `PaginationDelegate` impl for `IssueSearchDelegate` from
`examples/pagination_example/src/github.rs`.  `api` stands for the I/O
call `client.search_issues(&self.params)`.  (In Rust, `set_offset` with
`per_page = 0` would panic on division by zero; the theorem about this
delegate has hypotheses that force `0 < per_page`.) -/
def issueSearchOps (api : IssueSearchParams → Except Err (IssueSearchResponse Item)) :
    PaginationDelegate (IssueSearchDelegate Item) Item Err where
  next_page d :=
    match api d.params with
    | .error e => (.error e, d)
    | .ok value => (.ok value.items, { d with total_count := some value.total_count })
  offset d := d.params.per_page * d.params.page
  set_offset d value :=
    if value % d.params.per_page = 0 then
      { d with params := { d.params with page := value / d.params.per_page } }
    else
      { d with params := { d.params with page := USIZE_MAX / d.params.per_page } }
  total_items d := d.total_count

/-- A concrete API oracle: one short page of 5 items, total count 5. -/
def ghApi : IssueSearchParams → Except Unit (IssueSearchResponse Nat) :=
  fun _ => .ok ⟨5, [1, 2, 3, 4, 5]⟩

lemma yielded_cons (out : Poll (Option (Except Err Item))) (outs) :
    yielded (out :: outs) = (itemOf out).toList ++ yielded outs := by
  cases ho : itemOf out <;> simp [yielded, List.filterMap_cons, ho]

lemma yieldedErrors_cons (out : Poll (Option (Except Err Item))) (outs) :
    yieldedErrors (out :: outs) = (errOf out).toList ++ yieldedErrors outs := by
  cases ho : errOf out <;> simp [yieldedErrors, List.filterMap_cons, ho]

lemma okItems_append (fs gs : List (Nat × Except Err (List Item))) :
    okItems (fs ++ gs) = okItems fs ++ okItems gs := by
  simp [okItems]

lemma errItems_append (fs gs : List (Nat × Except Err (List Item))) :
    errItems (fs ++ gs) = errItems fs ++ errItems gs := by
  simp [errItems]

/-- One poll conserves items: what the poll yields plus what stays
buffered equals what was buffered plus what the resolved fetch (if any)
delivered. -/
lemma step_items (ops : PaginationDelegate σ Item Err)
    {s : PaginatedStream σ Item} {r : Bool} {out} {s'}
    (h : poll_next ops s r = some (out, s')) :
    (itemOf out).toList ++ buffered s' = buffered s ++ okItems (fetchOf ops s r) := by
  cases s with
  | Request d =>
      simp only [poll_next, Option.some.injEq, Prod.mk.injEq] at h
      obtain ⟨rfl, rfl⟩ := h
      simp [itemOf, buffered, fetchOf, okItems]
  | Pending d =>
      cases r with
      | false =>
          simp only [poll_next, if_neg, Bool.false_eq_true, not_false_eq_true,
            Option.some.injEq, Prod.mk.injEq] at h
          obtain ⟨rfl, rfl⟩ := h
          simp [itemOf, buffered, fetchOf, okItems]
      | true =>
          rcases hnp : ops.next_page d with ⟨res, d'⟩
          cases res with
          | ok items =>
              cases items with
              | nil => simp [poll_next, hnp] at h
              | cons x xs =>
                  simp only [poll_next, if_pos, hnp] at h
                  obtain ⟨rfl, rfl⟩ := h
                  simp [itemOf, buffered, fetchOf, okItems, hnp]
          | error e =>
              simp only [poll_next, if_pos, hnp] at h
              obtain ⟨rfl, rfl⟩ := h
              simp [itemOf, buffered, fetchOf, okItems, hnp]
  | Ready v =>
      obtain ⟨d, items⟩ := v
      cases items with
      | cons x xs =>
          simp only [poll_next, Option.some.injEq, Prod.mk.injEq] at h
          obtain ⟨rfl, rfl⟩ := h
          simp [itemOf, buffered, fetchOf, okItems]
      | nil =>
          by_cases hc : (ops.total_items d).getD USIZE_MAX ≤ ops.offset d
          · simp only [poll_next, hc, if_pos, Option.some.injEq, Prod.mk.injEq] at h
            obtain ⟨rfl, rfl⟩ := h
            simp [itemOf, buffered, fetchOf, okItems]
          · simp only [poll_next, hc, if_neg, not_false_eq_true,
              Option.some.injEq, Prod.mk.injEq] at h
            obtain ⟨rfl, rfl⟩ := h
            simp [itemOf, buffered, fetchOf, okItems]
  | Closed =>
      simp only [poll_next, Option.some.injEq, Prod.mk.injEq] at h
      obtain ⟨rfl, rfl⟩ := h
      simp [itemOf, buffered, fetchOf, okItems]
  | Indeterminate => simp [poll_next] at h

/-- One poll yields exactly the errors that the resolved fetch (if any)
delivered. -/
lemma step_errs (ops : PaginationDelegate σ Item Err)
    {s : PaginatedStream σ Item} {r : Bool} {out} {s'}
    (h : poll_next ops s r = some (out, s')) :
    (errOf out).toList = errItems (fetchOf ops s r) := by
  cases s with
  | Request d =>
      simp only [poll_next, Option.some.injEq, Prod.mk.injEq] at h
      obtain ⟨rfl, rfl⟩ := h
      simp [errOf, fetchOf, errItems]
  | Pending d =>
      cases r with
      | false =>
          simp only [poll_next, if_neg, Bool.false_eq_true, not_false_eq_true,
            Option.some.injEq, Prod.mk.injEq] at h
          obtain ⟨rfl, rfl⟩ := h
          simp [errOf, fetchOf, errItems]
      | true =>
          rcases hnp : ops.next_page d with ⟨res, d'⟩
          cases res with
          | ok items =>
              cases items with
              | nil => simp [poll_next, hnp] at h
              | cons x xs =>
                  simp only [poll_next, if_pos, hnp] at h
                  obtain ⟨rfl, rfl⟩ := h
                  simp [errOf, fetchOf, errItems, hnp]
          | error e =>
              simp only [poll_next, if_pos, hnp] at h
              obtain ⟨rfl, rfl⟩ := h
              simp [errOf, fetchOf, errItems, hnp]
  | Ready v =>
      obtain ⟨d, items⟩ := v
      cases items with
      | cons x xs =>
          simp only [poll_next, Option.some.injEq, Prod.mk.injEq] at h
          obtain ⟨rfl, rfl⟩ := h
          simp [errOf, fetchOf, errItems]
      | nil =>
          by_cases hc : (ops.total_items d).getD USIZE_MAX ≤ ops.offset d
          · simp only [poll_next, hc, if_pos, Option.some.injEq, Prod.mk.injEq] at h
            obtain ⟨rfl, rfl⟩ := h
            simp [errOf, fetchOf, errItems]
          · simp only [poll_next, hc, if_neg, not_false_eq_true,
              Option.some.injEq, Prod.mk.injEq] at h
            obtain ⟨rfl, rfl⟩ := h
            simp [errOf, fetchOf, errItems]
  | Closed =>
      simp only [poll_next, Option.some.injEq, Prod.mk.injEq] at h
      obtain ⟨rfl, rfl⟩ := h
      simp [errOf, fetchOf, errItems]
  | Indeterminate => simp [poll_next] at h

/-- A run that does not panic conserves items: everything yielded plus
what remains buffered equals what was buffered at the start plus
everything the successful fetches delivered. -/
lemma run_items (ops : PaginationDelegate σ Item Err)
    (rs : List Bool) (s sf : PaginatedStream σ Item)
    (h : (run ops s rs).2.2 = some sf) :
    yielded (run ops s rs).1 ++ buffered sf =
      buffered s ++ okItems (run ops s rs).2.1 := by
  induction rs generalizing s with
  | nil =>
      simp only [run, Option.some.injEq] at h
      subst h
      simp [run, yielded, okItems]
  | cons r rs ih =>
      rcases hp : poll_next ops s r with _ | ⟨out, s'⟩
      · simp [run, hp] at h
      · rcases hr : run ops s' rs with ⟨outs, fs, fin⟩
        simp only [run, hp, hr] at h ⊢
        have ih' := ih s'
        rw [hr] at ih'
        have ih2 : yielded outs ++ buffered sf = buffered s' ++ okItems fs := ih' h
        have hstep := step_items ops hp
        rw [yielded_cons, okItems_append, List.append_assoc, ih2,
          ← List.append_assoc, hstep, List.append_assoc]

/-- A run that does not panic yields exactly the errors that its failed
fetches delivered, in order. -/
lemma run_errs (ops : PaginationDelegate σ Item Err)
    (rs : List Bool) (s sf : PaginatedStream σ Item)
    (h : (run ops s rs).2.2 = some sf) :
    yieldedErrors (run ops s rs).1 = errItems (run ops s rs).2.1 := by
  induction rs generalizing s with
  | nil =>
      simp [run, yieldedErrors, errItems]
  | cons r rs ih =>
      rcases hp : poll_next ops s r with _ | ⟨out, s'⟩
      · simp [run, hp] at h
      · rcases hr : run ops s' rs with ⟨outs, fs, fin⟩
        simp only [run, hp, hr] at h ⊢
        have ih' := ih s'
        rw [hr] at ih'
        rw [yieldedErrors_cons, errItems_append, step_errs ops hp, ih' h]

/-- A fetch trace whose results are `Ok P1, …, Ok Pn` delivers exactly
`P1 ++ … ++ Pn`. -/
lemma okItems_of_map_ok (fs : List (Nat × Except Err (List Item)))
    (pages : List (List Item)) (h : fs.map Prod.snd = pages.map Except.ok) :
    okItems fs = pages.flatten := by
  induction fs generalizing pages with
  | nil =>
      cases pages with
      | nil => simp [okItems]
      | cons p ps => simp at h
  | cons f fs ih =>
      cases pages with
      | nil => simp at h
      | cons p ps =>
          simp only [List.map_cons, List.cons.injEq] at h
          obtain ⟨h1, h2⟩ := h
          simp [okItems, h1, ← ih ps h2, okItems]

/-- A fetch trace whose results are all `Ok` delivers no errors. -/
lemma errItems_of_map_ok (fs : List (Nat × Except Err (List Item)))
    (pages : List (List Item)) (h : fs.map Prod.snd = pages.map Except.ok) :
    errItems fs = [] := by
  induction fs generalizing pages with
  | nil => simp [errItems]
  | cons f fs ih =>
      cases pages with
      | nil => simp at h
      | cons p ps =>
          simp only [List.map_cons, List.cons.injEq] at h
          obtain ⟨h1, h2⟩ := h
          simp [errItems, h1, ← ih ps h2, errItems]

/-! ## The claims -/

/-- C1: for every pagination source whose successive `next_page` calls
return pages `P1, …, Pn`, pulling the engine (from its initial `Request`
state) until it reaches `Closed` yields exactly the items of
`P1 ++ … ++ Pn`, in that concatenated order, each wrapped in `Ok`, and no
errors. -/
theorem order_preservation (ops : PaginationDelegate σ Item Err)
    (d₀ : σ) (rs : List Bool) (pages : List (List Item))
    (hfin : (run ops (.Request d₀) rs).2.2 = some .Closed)
    (hpages : (run ops (.Request d₀) rs).2.1.map Prod.snd = pages.map Except.ok) :
    yielded (run ops (.Request d₀) rs).1 = pages.flatten
    ∧ yieldedErrors (run ops (.Request d₀) rs).1 = [] := by
  have hi := run_items ops rs (.Request d₀) .Closed hfin
  have he := run_errs ops rs (.Request d₀) .Closed hfin
  constructor
  · rw [okItems_of_map_ok _ pages hpages] at hi
    simpa [buffered] using hi
  · rw [errItems_of_map_ok _ pages hpages] at he
    exact he

/-- Witness for C1: a scripted source with pages `[[1, 2], [3]]` and
total 3, driven to completion in six polls, yields `[1, 2, 3]` and no
errors. -/
theorem order_preservation_witness :
    yielded (run pagesOps (.Request ⟨0, some 3, [[1, 2], [3]]⟩)
        (List.replicate 6 true)).1 = [1, 2, 3]
    ∧ yieldedErrors (run pagesOps (.Request ⟨0, some 3, [[1, 2], [3]]⟩)
        (List.replicate 6 true)).1 = ([] : List Unit) :=
  order_preservation pagesOps ⟨0, some 3, [[1, 2], [3]]⟩ (List.replicate 6 true)
    [[1, 2], [3]] (by decide) (by decide)

/-- C2 fails on the code: an in-flight fetch resolving with `Err(42)`
yields the error once and installs `Closed`, but the `Closed` arm never
reinstalls a state, so the first subsequent poll yields end-of-sequence
while leaving `Indeterminate` installed and the second subsequent poll
hits `unreachable!()` and panics — it does not yield the end-of-sequence
signal. -/
theorem error_then_polls_panics :
    run failOps (.Pending ()) [true, true, true] =
      ([.Ready (some (.error 42)), .Ready none], [(0, .error 42)], none) := by
  decide

/-- C3: after a successful page fetch of `k` items the installed delegate
is exactly `set_offset` applied once with the delegate's current offset
plus `k`; every other transition (starting a request, a still-pending
future, popping a buffered item, draining an empty buffer) installs the
delegate it started with, unchanged, and a poll in `Closed` holds no
delegate at all. -/
theorem offset_advance_law (ops : PaginationDelegate σ Item Err) :
    (∀ (d d' : σ) (x : Item) (xs : List Item),
        ops.next_page d = (.ok (x :: xs), d') →
        poll_next ops (.Pending d) true =
          some (.Ready (some (.ok x)),
            .Ready ⟨ops.set_offset d' (ops.offset d' + (x :: xs).length), xs⟩))
    ∧ (∀ (d : σ) (r : Bool),
        poll_next ops (.Request d) r = some (.Pending, .Pending d))
    ∧ (∀ (d : σ), poll_next ops (.Pending d) false = some (.Pending, .Pending d))
    ∧ (∀ (d : σ) (y : Item) (ys : List Item) (r : Bool),
        poll_next ops (.Ready ⟨d, y :: ys⟩) r =
          some (.Ready (some (.ok y)), .Ready ⟨d, ys⟩))
    ∧ (∀ (d : σ) (r : Bool),
        poll_next ops (.Ready ⟨d, []⟩) r = some (.Ready none, .Closed)
        ∨ poll_next ops (.Ready ⟨d, []⟩) r = some (.Pending, .Pending d))
    ∧ (∀ (r : Bool),
        poll_next ops (.Closed : PaginatedStream σ Item) r =
          some (.Ready none, .Indeterminate)) := by
  refine ⟨fun d d' x xs h => by simp [poll_next, h], fun d r => rfl, fun d => rfl,
    fun d y ys r => rfl, fun d r => ?_, fun r => rfl⟩
  by_cases hc : (ops.total_items d).getD USIZE_MAX ≤ ops.offset d
  · exact Or.inl (by simp [poll_next, hc])
  · exact Or.inr (by simp [poll_next, hc])

/-- Witness for C3: the constant delegate's one-item page advances the
offset by 1 through a single `set_offset` call. -/
theorem offset_advance_law_witness :
    poll_next constOps (.Pending ()) true =
      some (.Ready (some (.ok 7)),
        .Ready ⟨constOps.set_offset () (constOps.offset () + 1), []⟩) :=
  (offset_advance_law constOps).1 () () 7 [] rfl

/-- C7 fails on the code: `Closed` is not absorbing.  Polling a `Closed`
engine twice: the first poll yields the end-of-sequence signal but — the
`Closed` arm performing no `self.set(...)` — leaves `Indeterminate`
installed, and the second poll hits `unreachable!()` and panics. -/
theorem closed_second_poll_panics :
    run constOps (.Closed : PaginatedStream Unit Nat) [true, true] =
      ([.Ready none], [], none) := by
  decide

/-- C4 (amended): polled in the `Ready` (Draining) state with an empty
buffer, the engine closes and signals end-of-sequence exactly when the
source's offset has reached or exceeded the advisory total — an absent
total being treated as `usize::MAX`, not as truly unbounded — and
otherwise transitions through `Request` into `Pending` within the same
call, returning `Poll::Pending`. -/
theorem draining_empty_total_check (ops : PaginationDelegate σ Item Err)
    (d : σ) (r : Bool) :
    poll_next ops (.Ready ⟨d, []⟩) r =
      if (ops.total_items d).getD USIZE_MAX ≤ ops.offset d then
        some (.Ready none, .Closed)
      else
        some (.Pending, .Pending d) := by
  by_cases hc : (ops.total_items d).getD USIZE_MAX ≤ ops.offset d <;>
    simp [poll_next, hc]

/-- Counterexample to C4 as stated: a delegate reporting offset
`usize::MAX` with an absent advisory total.  The claim says an absent
total is treated as unbounded, so the engine should transition to
`Requesting`; the code compares the offset against
`total_items().unwrap_or(usize::MAX)` and closes instead. -/
theorem draining_empty_absent_total_counterexample :
    poll_next maxOffsetOps (.Ready ⟨(), []⟩) true = some (.Ready none, .Closed)
    ∧ poll_next maxOffsetOps (.Ready ⟨(), []⟩) true ≠ some (.Pending, .Pending ()) := by
  constructor
  · decide
  · decide

/-- C5: a poll that observes an in-flight `next_page` future resolving
successfully with an empty page panics (the unconditional
`pop_front().unwrap()`); a poll observing a non-empty successful page
does not. -/
theorem empty_page_panics (ops : PaginationDelegate σ Item Err) (d d' : σ) :
    (ops.next_page d = (.ok [], d') → poll_next ops (.Pending d) true = none)
    ∧ ∀ (x : Item) (xs : List Item),
        ops.next_page d = (.ok (x :: xs), d') →
        poll_next ops (.Pending d) true ≠ none := by
  constructor
  · intro h; simp [poll_next, h]
  · intro x xs h; simp [poll_next, h]

/-- Witness for C5: the delegate that serves an empty page makes the
resolving poll panic. -/
theorem empty_page_panics_witness :
    poll_next emptyPageOps (.Pending ()) true = none :=
  (empty_page_panics emptyPageOps () ()).1 rfl

/-- C6 fails on the code: `Indeterminate` is observable at a call
boundary.  Starting from the reachable `Pending` state of a failing
source, the first poll yields the error and installs `Closed`; the
second poll returns normally but — the `Closed` arm performing no
`self.set(...)` — leaves `Indeterminate` as the state observed after the
call, and a further poll reaches the `unreachable!()` arm and panics. -/
theorem closed_poll_installs_indeterminate :
    run failOps (.Pending ()) [true, true] =
      ([.Ready (some (.error 42)), .Ready none], [(0, .error 42)],
        some .Indeterminate)
    ∧ poll_next failOps (.Indeterminate : PaginatedStream Unit Nat) true = none := by
  constructor
  · decide
  · decide

/-- C8: the concrete scenario.  A source with advisory total 25 serving
pages of sizes `[10, 10, 5]`, driven with an always-resolving schedule:
29 polls yield the 25 items `0,…,24` in order and no error; exactly three
fetches resolve, observing source offsets `0`, `10`, `20`; the run ends
`Closed`; the end-of-sequence signal appears exactly at the final poll;
of the 26 non-`Pending` poll results (the consumer-visible pulls), the
26th is the completion signal; and after 28 polls the source holds offset
25 with an empty buffer — the fourth fetch never occurs. -/
theorem concrete_scenario_25 :
    yielded (run pagesOps (.Request scenarioDelegate) (List.replicate 29 true)).1 =
      List.range 25
    ∧ yieldedErrors (run pagesOps (.Request scenarioDelegate)
        (List.replicate 29 true)).1 = []
    ∧ (run pagesOps (.Request scenarioDelegate) (List.replicate 29 true)).2.1 =
        [(0, .ok (List.range' 0 10)), (10, .ok (List.range' 10 10)),
          (20, .ok (List.range' 20 5))]
    ∧ (run pagesOps (.Request scenarioDelegate) (List.replicate 29 true)).2.2 =
        some .Closed
    ∧ (run pagesOps (.Request scenarioDelegate) (List.replicate 29 true)).1.getLast? =
        some (.Ready none)
    ∧ ((run pagesOps (.Request scenarioDelegate) (List.replicate 29 true)).1.take 28).all
        (fun o => !isDone o) = true
    ∧ ((run pagesOps (.Request scenarioDelegate) (List.replicate 29 true)).1.filter
        (fun o => match o with | .Pending => false | _ => true)).length = 26
    ∧ (run pagesOps (.Request scenarioDelegate) (List.replicate 28 true)).2.2 =
        some (.Ready ⟨⟨25, some 25, []⟩, []⟩) := by
  decide

/-- C9: short-page termination for the GitHub issue-search delegate.  If
a fetch resolves with a non-empty page of `k` items with `k` smaller than
`per_page`, the non-multiple offset makes `set_offset` install the
sentinel page `usize::MAX / per_page`; once the buffer drains, the next
poll closes the stream and signals completion instead of fetching
(assuming the reported total count is not astronomically large). -/
theorem short_page_sentinel_closes
    (api : IssueSearchParams → Except Err (IssueSearchResponse Item))
    (d : IssueSearchDelegate Item) (resp : IssueSearchResponse Item)
    (x : Item) (xs : List Item) (r : Bool)
    (hapi : api d.params = .ok resp)
    (hitems : resp.items = x :: xs)
    (hshort : resp.items.length < d.params.per_page)
    (htot : resp.total_count ≤ d.params.per_page * (USIZE_MAX / d.params.per_page)) :
    ∃ d₂ : IssueSearchDelegate Item,
      poll_next (issueSearchOps api) (.Pending d) true =
        some (.Ready (some (.ok x)), .Ready ⟨d₂, xs⟩)
      ∧ d₂.params.page = USIZE_MAX / d.params.per_page
      ∧ poll_next (issueSearchOps api) (.Ready ⟨d₂, []⟩) r =
          some (.Ready none, .Closed) := by
  have hlen : (x :: xs).length < d.params.per_page := hitems ▸ hshort
  have hmod : (d.params.per_page * d.params.page + (x :: xs).length) %
      d.params.per_page = (x :: xs).length := by
    rw [Nat.mul_add_mod, Nat.mod_eq_of_lt hlen]
  have hne : ¬ (d.params.per_page * d.params.page + (x :: xs).length) %
      d.params.per_page = 0 := by
    rw [hmod]; simp
  have hne' : ¬ (d.params.per_page * d.params.page + (xs.length + 1)) %
      d.params.per_page = 0 := by simpa using hne
  refine ⟨⟨⟨d.params.per_page, USIZE_MAX / d.params.per_page⟩,
    some resp.total_count⟩, ?_, rfl, ?_⟩
  · simp [poll_next, issueSearchOps, hapi, hitems, hne, hne']
  · simp [poll_next, issueSearchOps, htot]

/-- Witness for C9: page size 10, page 0, a short page `[1,…,5]` with
total count 5: the resolving poll yields item 1 and installs the sentinel
page; draining then polling closes the stream. -/
theorem short_page_sentinel_closes_witness :
    ∃ d₂ : IssueSearchDelegate Nat,
      poll_next (issueSearchOps ghApi) (.Pending ⟨⟨10, 0⟩, none⟩) true =
        some (.Ready (some (.ok 1)), .Ready ⟨d₂, [2, 3, 4, 5]⟩)
      ∧ d₂.params.page = USIZE_MAX / 10
      ∧ poll_next (issueSearchOps ghApi) (.Ready ⟨d₂, []⟩) true =
          some (.Ready none, .Closed) :=
  short_page_sentinel_closes ghApi ⟨⟨10, 0⟩, none⟩ ⟨5, [1, 2, 3, 4, 5]⟩ 1
    [2, 3, 4, 5] true rfl rfl (by decide) (by decide)

/-- C10: the size hint's lower bound is always 0 and its upper bound is
the source's advisory total in the `Request` and `Ready` states and
`none` in the `Pending`, `Closed` and `Indeterminate` states. -/
theorem size_hint_spec (ops : PaginationDelegate σ Item Err) :
    (∀ d, size_hint ops (.Request d : PaginatedStream σ Item) =
        (0, ops.total_items d))
    ∧ (∀ v : ReadyStateValue σ Item,
        size_hint ops (.Ready v) = (0, ops.total_items v.delegate))
    ∧ (∀ d, size_hint ops (.Pending d : PaginatedStream σ Item) = (0, none))
    ∧ size_hint ops (.Closed : PaginatedStream σ Item) = (0, none)
    ∧ size_hint ops (.Indeterminate : PaginatedStream σ Item) = (0, none)
    ∧ ∀ s : PaginatedStream σ Item, (size_hint ops s).1 = 0 := by
  refine ⟨fun d => rfl, fun v => rfl, fun d => rfl, rfl, rfl, fun s => ?_⟩
  cases s <;> rfl

end Awaur
